import Mathlib

/-!
Shallow embedding of the hatena-bookmark-mcp feed pipeline (Go) in Lean 4.

Go strings are modelled as Lean `String` (a list of Unicode code points);
`len` on a Go string is its UTF-8 byte count, modelled by `String.utf8ByteSize`.
Go `for _, r := range s` iterates over runes, modelled by `String.data`.
Wall-clock time is passed explicitly: `time.Now()` becomes a `now` parameter,
and Go standard-library calls that are not part of this repository
(`time.Parse`, `url.Parse`, XML unmarshalling) become explicit function
parameters of the definitions that invoke them.
-/

set_option maxRecDepth 16000

namespace HatenaBookmark

/-- Go `unicode.IsSpace`: the White_Space property set used by
`strings.TrimSpace`, by code point (space, tab, LF, VT, FF, CR, NEL,
NBSP, and the Unicode space separators). -/
def goIsSpace (c : Char) : Bool :=
  c.toNat = 32 || c.toNat = 9 || c.toNat = 10 || c.toNat = 11 || c.toNat = 12 ||
  c.toNat = 13 || c.toNat = 0x85 || c.toNat = 0xA0 ||
  c.toNat = 0x1680 || (0x2000 ≤ c.toNat && c.toNat ≤ 0x200A) ||
  c.toNat = 0x2028 || c.toNat = 0x2029 || c.toNat = 0x202F ||
  c.toNat = 0x205F || c.toNat = 0x3000

/-- Go `strings.TrimSpace`: drop leading and trailing white space. -/
def goTrimSpace (s : String) : String :=
  (((s.data.dropWhile goIsSpace).reverse.dropWhile goIsSpace).reverse).asString

/-- Go byte length `len(s)` of a string. -/
def goLen (s : String) : Nat := s.utf8ByteSize

/-- Helper for `goContains`: does `sub` occur at the head of `l`? -/
def listStarts : List Char → List Char → Bool
  | [], _ => true
  | _ :: _, [] => false
  | a :: as, b :: bs => a = b && listStarts as bs

/-- Helper for `goContains`: does `sub` occur anywhere in `l`? -/
def goContainsL (sub : List Char) : List Char → Bool
  | [] => listStarts sub []
  | c :: t => listStarts sub (c :: t) || goContainsL sub t

/-- Go `strings.Contains s sub`. -/
def goContains (s sub : String) : Bool := goContainsL sub.data s.data

/-- Decimal digits of a natural number, most significant first
(`fuel`-indexed so that the kernel can evaluate it; `fuel = n + 1`
always suffices). -/
def natToCharsAux : Nat → Nat → List Char → List Char
  | 0, _, acc => acc
  | fuel + 1, n, acc =>
    if n < 10 then Char.ofNat (48 + n) :: acc
    else natToCharsAux fuel (n / 10) (Char.ofNat (48 + n % 10) :: acc)

/-- Decimal representation of a natural number as characters. -/
def natToChars (n : Nat) : List Char := natToCharsAux (n + 1) n []

/-- Parse a list of ASCII digits as a natural number
(Go `strconv.Atoi` on an all-digit string). -/
def digitsToNat (l : List Char) : Nat :=
  l.foldl (fun acc c => acc * 10 + (c.toNat - 48)) 0

/-- ASCII digit test, as in the Go rune-range loops `r < '0' || r > '9'`
(code points 48 through 57). -/
def isDigitChar (c : Char) : Bool := 48 ≤ c.toNat && c.toNat ≤ 57

/-! ## Data model (internal/types/bookmark.go) -/

/-- Error codes of `types.ErrorCode`. -/
inductive ErrorCode where
  | validation
  | network
  | parsing
  | api
deriving DecidableEq, Repr

/-- `types.MCPError`; the `Details` map is modelled as a key/value list
with all values rendered to strings. -/
structure MCPError where
  Code : ErrorCode
  Message : String
  Details : List (String × String)
deriving DecidableEq, Repr

/-- `types.GetHatenaBookmarksParams` (Go `int` page modelled as `Int`). -/
structure GetHatenaBookmarksParams where
  Username : String
  Tag : String
  Date : String
  URL : String
  Page : Int
deriving DecidableEq, Repr

/-- `types.FilterParams`. -/
structure FilterParams where
  Tag : String
  Date : String
  URL : String
deriving DecidableEq, Repr

/-- `types.BookmarkItem`. -/
structure BookmarkItem where
  Title : String
  URL : String
  BookmarkedAt : String
  Tags : List String
  Comment : String
deriving DecidableEq, Repr

/-- `types.GetHatenaBookmarksResponse`. -/
structure GetHatenaBookmarksResponse where
  User : String
  Page : Int
  TotalCount : Nat
  Filters : Option FilterParams
  Bookmarks : List BookmarkItem
deriving DecidableEq, Repr

/-- `types.Item`: a single RSS 2.0 item. -/
structure Item where
  Title : String
  Link : String
  Description : String
  PubDate : String
  Subjects : List String
deriving DecidableEq, Repr

/-- `types.Channel`: RSS 2.0 channel. -/
structure Channel where
  Title : String
  Link : String
  Description : String
  Items : List Item
deriving DecidableEq, Repr

/-- `types.RSS` envelope. -/
structure RSS where
  channel : Channel
deriving DecidableEq, Repr

/-- `types.RDFItem`: a single RDF/RSS 1.0 item. -/
structure RDFItem where
  About : String
  Title : String
  Link : String
  Description : String
  Creator : String
  Date : String
  Subject : String
  BookmarkCount : Int
  ContentEncoded : String
deriving DecidableEq, Repr

/-- `types.RDFChannel`. -/
structure RDFChannel where
  About : String
  Title : String
  Link : String
  Description : String
deriving DecidableEq, Repr

/-- `types.RDF` envelope. -/
structure RDF where
  channel : RDFChannel
  Items : List RDFItem
deriving DecidableEq, Repr

/-- `types.ParsedRSSData`. -/
structure ParsedRSSData where
  Title : String
  Items : List BookmarkItem
  ItemCount : Nat
deriving DecidableEq, Repr

/-! ## Service-side validation helpers (internal/service/bookmark.go) -/

/-- Character class of the username rune loop in `isValidUsername`
and of the regex `^[a-zA-Z0-9\-]+$` of `Validator.ValidateUsername`:
ASCII letter (97-122, 65-90), digit (48-57), or hyphen (45), by code
point. -/
def isUserChar (c : Char) : Bool :=
  (97 ≤ c.toNat && c.toNat ≤ 122) || (65 ≤ c.toNat && c.toNat ≤ 90) ||
  (48 ≤ c.toNat && c.toNat ≤ 57) || c.toNat = 45

/-- `isValidUsername` (service): every rune is in the allowed class and
the string is non-empty (`len(username) > 0`). -/
def isValidUsername (username : String) : Bool :=
  username.data.all isUserChar && !(username.data.isEmpty)

/-- `isValidDateFormat` (service): exactly 8 bytes, all ASCII digits.
No calendar validation is performed here (the Go comment reads
"Additional validation could be added here"). -/
def isValidDateFormat (date : String) : Bool :=
  goLen date == 8 && date.data.all isDigitChar

/-- `validateParams` (service): the validation run on a `GetBookmarks`
request. `isURL` stands for the stdlib-backed `isValidURL`. Returns
`some err` on the first violation, `none` on acceptance. -/
def validateParams (isURL : String → Bool) (params : GetHatenaBookmarksParams) :
    Option MCPError :=
  if goTrimSpace params.Username = "" then
    some ⟨.validation, "Username is required", [("field", "username")]⟩
  else if !(isValidUsername params.Username) then
    some ⟨.validation, "Username must contain only alphanumeric characters and hyphens",
      [("username", params.Username)]⟩
  else if params.Date ≠ "" && !(isValidDateFormat params.Date) then
    some ⟨.validation, "Date must be in YYYYMMDD format", [("date", params.Date)]⟩
  else if params.URL ≠ "" && !(isURL params.URL) then
    some ⟨.validation, "Invalid URL format", [("url", params.URL)]⟩
  else if params.Page < 0 then
    some ⟨.validation, "Page number must be positive", [("page", toString params.Page)]⟩
  else
    none

/-! ## Utils validator (internal/utils/validator.go) -/

/-- `Validator.ValidateUsername`: trim, require non-empty, at most 50
bytes, and full match of `^[a-zA-Z0-9\-]+$`. -/
def ValidateUsername (username : String) : Option MCPError :=
  let username := goTrimSpace username
  if username = "" then
    some ⟨.validation, "Username is required", [("field", "username")]⟩
  else if goLen username > 50 then
    some ⟨.validation, "Username must be 50 characters or less",
      [("username", username), ("length", toString (goLen username))]⟩
  else if !(username.data.all isUserChar) then
    some ⟨.validation, "Username must contain only alphanumeric characters and hyphens",
      [("username", username)]⟩
  else
    none

/-- `Validator.ValidateTag`: trim, at most 100 bytes, and none of the
five forbidden characters may occur. -/
def ValidateTag (tag : String) : Option MCPError :=
  let tag := goTrimSpace tag
  if goLen tag > 100 then
    some ⟨.validation, "Tag must be 100 characters or less",
      [("tag", tag), ("length", toString (goLen tag))]⟩
  else
    match ["<", ">", "\x22", "\x27", "&"].find? (fun c => goContains tag c) with
    | some c => some ⟨.validation, "Tag contains invalid characters",
        [("tag", tag), ("invalid_char", c)]⟩
    | none => none

/-- Gregorian leap-year rule used by Go `time`. -/
def isLeapYear (y : Nat) : Bool :=
  y % 4 == 0 && (y % 100 != 0 || y % 400 == 0)

/-- Days in a month, as enforced by Go `time.Parse ("20060102")`. -/
def daysInMonth (y m : Nat) : Nat :=
  if m = 2 then (if isLeapYear y then 29 else 28)
  else if m = 4 || m = 6 || m = 9 || m = 11 then 30
  else 31

/-- Calendar validity check performed by the final
`time.Parse("20060102", date)` call of `ValidateDate` (the year/month/day
fields have already been read off as decimal numbers). -/
def goDateValid (y m d : Nat) : Bool :=
  1 ≤ m && m ≤ 12 && 1 ≤ d && d ≤ daysInMonth y m

/-- `Validator.ValidateDate`: trim; 8 bytes; all digits; year within
`[1900, nowYear + 1]`; month in `[1,12]`; day in `[1,31]`; and finally
calendar-valid per `time.Parse`. `nowYear` stands for
`time.Now().Year()`. -/
def ValidateDate (nowYear : Nat) (date : String) : Option MCPError :=
  let date := goTrimSpace date
  if goLen date ≠ 8 then
    some ⟨.validation, "Date must be in YYYYMMDD format",
      [("date", date), ("expected_format", "YYYYMMDD")]⟩
  else if !(date.data.all isDigitChar) then
    some ⟨.validation, "Date must contain only numeric characters", [("date", date)]⟩
  else
    let year := digitsToNat (date.data.take 4)
    if year < 1900 || year > nowYear + 1 then
      some ⟨.validation, "Invalid year in date",
        [("date", date), ("year", toString year)]⟩
    else
      let month := digitsToNat ((date.data.drop 4).take 2)
      if month < 1 || month > 12 then
        some ⟨.validation, "Invalid month in date",
          [("date", date), ("month", toString month)]⟩
      else
        let day := digitsToNat (date.data.drop 6)
        if day < 1 || day > 31 then
          some ⟨.validation, "Invalid day in date",
            [("date", date), ("day", toString day)]⟩
        else if !(goDateValid year month day) then
          some ⟨.validation, "Invalid date", [("date", date)]⟩
        else
          none

/-- `Validator.ValidatePage`: reject negative pages and pages above
10000. -/
def ValidatePage (page : Int) : Option MCPError :=
  if page < 0 then
    some ⟨.validation, "Page number must be positive", [("page", toString page)]⟩
  else if page > 10000 then
    some ⟨.validation, "Page number is too large (maximum: 10000)",
      [("page", toString page)]⟩
  else
    none

/-- `Validator.ValidateGetBookmarksParams`: username always, then each
optional field only when present, then page. `vURL` stands for the
stdlib-backed `ValidateURL`. -/
def ValidateGetBookmarksParams (vURL : String → Option MCPError) (nowYear : Nat)
    (params : GetHatenaBookmarksParams) : Option MCPError :=
  match ValidateUsername params.Username with
  | some e => some e
  | none =>
    match (if params.Tag ≠ "" then ValidateTag params.Tag else none) with
    | some e => some e
    | none =>
      match (if params.Date ≠ "" then ValidateDate nowYear params.Date else none) with
      | some e => some e
      | none =>
        match (if params.URL ≠ "" then vURL params.URL else none) with
        | some e => some e
        | none => ValidatePage params.Page

/-! ## Cache key generation (internal/utils/cache.go) -/

/-- Go `string(rune(i))` for an `int` argument: the value is first
truncated to a signed 32-bit `rune`; a rune that is not a valid Unicode
scalar value (negative, a surrogate, or above U+10FFFF) renders as the
replacement character U+FFFD. -/
def goStringOfRune (n : Int) : String :=
  let r : Int := (n + 2 ^ 31) % 2 ^ 32 - 2 ^ 31
  if 0 ≤ r ∧ (r < 0xD800 ∨ (0xDFFF < r ∧ r < 0x110000)) then
    String.singleton (Char.ofNat r.toNat)
  else
    "�"

/-- `GenerateCacheKey`: concatenates the username with `_tag:`, `_date:`,
`_url:` and `_page:` segments for the fields that are present; the page
number goes through the `string(rune(page))` coercion. -/
def GenerateCacheKey (params : GetHatenaBookmarksParams) : String :=
  let key := params.Username
  let key := if params.Tag ≠ "" then key ++ "_tag:" ++ params.Tag else key
  let key := if params.Date ≠ "" then key ++ "_date:" ++ params.Date else key
  let key := if params.URL ≠ "" then key ++ "_url:" ++ params.URL else key
  let key := if params.Page > 0 then key ++ "_page:" ++ goStringOfRune params.Page else key
  key

/-! ## RSS parser (internal/parser/rss.go, dual-dialect version) -/

/-- A Go `time.Time` value, to the precision the pipeline observes:
calendar fields plus a zone offset in minutes. -/
structure GoTime where
  year : Nat
  month : Nat
  day : Nat
  hour : Nat
  minute : Nat
  second : Nat
  offsetMin : Int
deriving DecidableEq, Repr

/-- Zero-pad the decimal form of `n` on the left to `w` characters. -/
def padNat (w : Nat) (n : Nat) : List Char :=
  List.replicate (w - (natToChars n).length) '0' ++ natToChars n

/-- Zone suffix of the RFC3339 rendering: `Z` for a zero offset, a
signed `hh:mm` otherwise. -/
def offsetChars (o : Int) : List Char :=
  if o = 0 then ['Z']
  else (if o < 0 then ['-'] else ['+']) ++
    padNat 2 (o.natAbs / 60) ++ [':'] ++ padNat 2 (o.natAbs % 60)

/-- Go `t.Format(time.RFC3339)`: `YYYY-MM-DDThh:mm:ss` followed by the
zone suffix. -/
def goFormatRFC3339 (t : GoTime) : String :=
  (padNat 4 t.year ++ ['-'] ++ padNat 2 t.month ++ ['-'] ++ padNat 2 t.day ++
   ['T'] ++ padNat 2 t.hour ++ [':'] ++ padNat 2 t.minute ++ [':'] ++
   padNat 2 t.second ++ offsetChars t.offsetMin).asString

/-- A Go time layout string (the reference-date encoding used by
`time.Parse`). -/
abbrev Layout := String

/-- `time.RFC3339` layout constant. -/
def rfc3339Layout : Layout := "2006-01-02T15:04:05Z07:00"

/-- The layout list of `parseDate` (RSS 2.0 date formats, in source
order). -/
def rssLayouts : List Layout :=
  ["Mon, 02 Jan 2006 15:04:05 MST",
   "Mon, 02 Jan 2006 15:04:05 -0700",
   "02 Jan 06 15:04 MST",
   "02 Jan 06 15:04 -0700",
   rfc3339Layout,
   "2006-01-02 15:04:05"]

/-- The layout list of `parseRDFDate` (dc:date formats, in source
order). -/
def rdfLayouts : List Layout :=
  [rfc3339Layout,
   "2006-01-02T15:04:05.999999999Z07:00",
   "2006-01-02T15:04:05Z",
   "2006-01-02T15:04:05",
   "2006-01-02 15:04:05"]

/-- A model of the stdlib `time.Parse`: given a layout and an input,
either the parsed time or `none` (a parse error). The parser code is
parametric in this function. -/
abbrev TimeParse := Layout → String → Option GoTime

/-- The `for _, format := range formats` loop: first layout that parses
wins. -/
def firstMatch (tp : TimeParse) : List Layout → String → Option GoTime
  | [], _ => none
  | f :: rest, s =>
    match tp f s with
    | some t => some t
    | none => firstMatch tp rest s

/-- `parseDate`: empty input yields the current time with no error;
otherwise try `rssLayouts` in order; on total failure return the current
time together with an error value. The returned string is always the
RFC3339 rendering of some time. -/
def parseDate (tp : TimeParse) (now : GoTime) (dateString : String) :
    String × Option String :=
  if dateString = "" then (goFormatRFC3339 now, none)
  else
    match firstMatch tp rssLayouts dateString with
    | some t => (goFormatRFC3339 t, none)
    | none => (goFormatRFC3339 now, some ("could not parse date: " ++ dateString))

/-- `parseRDFDate`: empty input yields the current time with no error;
otherwise try `rdfLayouts`, and on total failure fall back to
`parseDate`. -/
def parseRDFDate (tp : TimeParse) (now : GoTime) (dateString : String) :
    String × Option String :=
  if dateString = "" then (goFormatRFC3339 now, none)
  else
    match firstMatch tp rdfLayouts dateString with
    | some t => (goFormatRFC3339 t, none)
    | none => parseDate tp now dateString

/-- `extractTags`: trim each dc:subject, drop the ones that trim to
empty, preserve order and duplicates. -/
def extractTags : List String → List String
  | [] => []
  | subject :: rest =>
    let tag := goTrimSpace subject
    if tag ≠ "" then tag :: extractTags rest else extractTags rest

/-- Skip past the first `'>'` of the list, returning the remainder, or
`none` when the list has no `'>'`. Models the extent of one
`<[^>]*>` regex match. -/
def dropThroughGt : List Char → Option (List Char)
  | [] => none
  | c :: rest => if c = '>' then some rest else dropThroughGt rest

/-- Fuel-indexed scanner equivalent to
`regexp.MustCompile("<[^>]*>").ReplaceAllString(text, "")`: each `'<'`
that is followed by some `'>'` starts a match reaching the first such
`'>'`; everything outside matches is kept. Any `fuel ≥ length` gives the
total behaviour. -/
def stripHTMLAux : Nat → List Char → List Char
  | _, [] => []
  | 0, l => l
  | fuel + 1, c :: rest =>
    if c = '<' then
      match dropThroughGt rest with
      | some rest' => stripHTMLAux fuel rest'
      | none => c :: rest
    else c :: stripHTMLAux fuel rest

/-- `stripHTMLTags`: remove every `<[^>]*>` match. -/
def stripHTMLTags (text : String) : String :=
  (stripHTMLAux text.data.length text.data).asString

/-- `extractComment`: strip markup, trim, and discard the result when it
is longer than 500 bytes. -/
def extractComment (description : String) : String :=
  let comment := stripHTMLTags description
  let comment := goTrimSpace comment
  if goLen comment > 500 then "" else comment

/-- `convertItemToBookmark`: the error of `parseDate` is swallowed (the
timestamp falls back to the current time) and the conversion itself
always succeeds — the returned error is always `none`, as in the
source which ends with `return ..., nil`. -/
def convertItemToBookmark (tp : TimeParse) (now : GoTime) (item : Item) :
    BookmarkItem × Option String :=
  let parsed := parseDate tp now item.PubDate
  let bookmarkedAt := match parsed.2 with
    | some _ => goFormatRFC3339 now
    | none => parsed.1
  (⟨goTrimSpace item.Title, goTrimSpace item.Link, bookmarkedAt,
    extractTags item.Subjects, extractComment item.Description⟩, none)

/-- `convertRDFItemToBookmark`: single-valued dc:subject becomes the
sole tag when the raw subject is non-empty (the trim happens after the
emptiness test); comment falls back to content:encoded when the
description yields none. Always succeeds. -/
def convertRDFItemToBookmark (tp : TimeParse) (now : GoTime) (item : RDFItem) :
    BookmarkItem × Option String :=
  let parsed := parseRDFDate tp now item.Date
  let bookmarkedAt := match parsed.2 with
    | some _ => goFormatRFC3339 now
    | none => parsed.1
  let tags : List String :=
    if item.Subject ≠ "" then [goTrimSpace item.Subject] else []
  let comment :=
    let c := extractComment item.Description
    if c = "" && item.ContentEncoded ≠ "" then extractComment item.ContentEncoded else c
  (⟨goTrimSpace item.Title, goTrimSpace item.Link, bookmarkedAt, tags, comment⟩, none)

/-- `extractBookmarkItems`: convert each item in order, skipping the
ones whose conversion reports an error (the `continue` branch). -/
def extractBookmarkItems (tp : TimeParse) (now : GoTime) : List Item → List BookmarkItem
  | [] => []
  | item :: rest =>
    match convertItemToBookmark tp now item with
    | (b, none) => b :: extractBookmarkItems tp now rest
    | (_, some _) => extractBookmarkItems tp now rest

/-- `extractRDFBookmarkItems`: same collect-or-skip loop for RDF items. -/
def extractRDFBookmarkItems (tp : TimeParse) (now : GoTime) :
    List RDFItem → List BookmarkItem
  | [] => []
  | item :: rest =>
    match convertRDFItemToBookmark tp now item with
    | (b, none) => b :: extractRDFBookmarkItems tp now rest
    | (_, some _) => extractRDFBookmarkItems tp now rest

/-- `parseRSS2Feed`: unmarshal (stdlib, passed as `uRSS`), then extract;
the item count reported is the length of the extracted list. -/
def parseRSS2Feed (tp : TimeParse) (now : GoTime) (uRSS : String → Option RSS)
    (xmlContent : String) : Except MCPError ParsedRSSData :=
  match uRSS xmlContent with
  | none => .error ⟨.parsing, "Failed to parse RSS XML",
      [("xml_length", toString (goLen xmlContent))]⟩
  | some rss =>
    let bookmarks := extractBookmarkItems tp now rss.channel.Items
    .ok ⟨rss.channel.Title, bookmarks, bookmarks.length⟩

/-- `parseRDFFeed`: unmarshal (stdlib, passed as `uRDF`), then extract. -/
def parseRDFFeed (tp : TimeParse) (now : GoTime) (uRDF : String → Option RDF)
    (xmlContent : String) : Except MCPError ParsedRSSData :=
  match uRDF xmlContent with
  | none => .error ⟨.parsing, "Failed to parse RDF XML",
      [("xml_length", toString (goLen xmlContent))]⟩
  | some rdf =>
    let bookmarks := extractRDFBookmarkItems tp now rdf.Items
    .ok ⟨rdf.channel.Title, bookmarks, bookmarks.length⟩

/-- `isRDFFormat`: textual marker check on the raw bytes, before any XML
parsing. -/
def isRDFFormat (xmlContent : String) : Bool :=
  goContains xmlContent "<rdf:RDF" || goContains xmlContent "xmlns:rdf"

/-- `ParseRSSFeed` (dual-dialect version): route by `isRDFFormat`. -/
def ParseRSSFeed (tp : TimeParse) (now : GoTime) (uRSS : String → Option RSS)
    (uRDF : String → Option RDF) (xmlContent : String) :
    Except MCPError ParsedRSSData :=
  if isRDFFormat xmlContent then parseRDFFeed tp now uRDF xmlContent
  else parseRSS2Feed tp now uRSS xmlContent

/-! ## Cache (internal/utils/cache.go) -/

/-- `utils.CacheEntry`; `ExpiresAt` is an absolute instant, modelled as a
natural number of time units. -/
structure CacheEntry where
  Data : GetHatenaBookmarksResponse
  ExpiresAt : Nat
deriving DecidableEq, Repr

/-- `utils.Cache`: the `map[string]*CacheEntry` is modelled as an
association list in which the most recent insertion for a key shadows
older ones; `ttl` is the fixed time-to-live. The mutex only serialises
access and has no sequential behaviour. -/
structure Cache where
  entries : List (String × CacheEntry)
  ttl : Nat
deriving DecidableEq, Repr

/-- `Cache.Get`: look the key up; a missing key is absent, and an entry
whose expiry instant lies strictly before `now` is treated as absent
(Go `time.Now().After(entry.ExpiresAt)`), with no sweep involved. -/
def Cache.get (c : Cache) (now : Nat) (key : String) :
    Option GetHatenaBookmarksResponse :=
  match c.entries.lookup key with
  | none => none
  | some entry => if entry.ExpiresAt < now then none else some entry.Data

/-- `Cache.Set`: store the value with expiry `now + ttl`. -/
def Cache.set (c : Cache) (now : Nat) (key : String)
    (data : GetHatenaBookmarksResponse) : Cache :=
  { c with entries := (key, ⟨data, now + c.ttl⟩) :: c.entries }

/-! ## Concrete instances used in closed-form checks -/

/-- A fixed instant: 2024-01-02 03:04:05 UTC. -/
def t0 : GoTime := ⟨2024, 1, 2, 3, 4, 5, 0⟩

/-- A concrete stand-in for `time.Parse` that recognises exactly the
RFC3339 rendering of `t0` under the RFC3339 layout and fails on
everything else. -/
def tpW : TimeParse := fun f s =>
  if f = rfc3339Layout && s = "2024-01-02T03:04:05Z" then some t0 else none

/-- An RSS item whose publication date matches no layout of `tpW`. -/
def itemW : Item := ⟨"title", "link", "desc", "garbage", []⟩

/-- A stand-in RSS unmarshaller that always fails. -/
def uRSSW : String → Option RSS := fun _ => none

/-- A stand-in RDF unmarshaller that always fails. -/
def uRDFW : String → Option RDF := fun _ => none

/-- A concrete response value for cache checks. -/
def respW : GetHatenaBookmarksResponse := ⟨"sample", 1, 0, none, []⟩

/-- A 126-character string of U+20000 (4 UTF-8 bytes each, 504 bytes
total). -/
def wideString : String := (List.replicate 126 (Char.ofNat 131072)).asString

/-- A 501-character ASCII string. -/
def longAscii : String := (List.replicate 501 'a').asString

/-- A 51-character ASCII username. -/
def longUser : String := (List.replicate 51 'a').asString

/-! ## Supporting lemmas -/

theorem data_asString (l : List Char) : (l.asString).data = l := rfl

theorem asString_data (s : String) : s.data.asString = s := rfl

theorem data_ne_nil {s : String} (h : s ≠ "") : s.data ≠ [] := by
  intro hd
  apply h
  cases s with
  | mk d => cases hd; rfl

theorem dropWhile_eq_self_of_none {p : Char → Bool} (l : List Char)
    (h : ∀ c ∈ l, p c = false) : l.dropWhile p = l := by
  cases l with
  | nil => rfl
  | cons a t => simp [List.dropWhile_cons, h a (by simp)]

theorem goTrimSpace_eq_self {s : String} (h : ∀ c ∈ s.data, goIsSpace c = false) :
    goTrimSpace s = s := by
  unfold goTrimSpace
  rw [dropWhile_eq_self_of_none _ h,
    dropWhile_eq_self_of_none _ (fun c hc => h c (List.mem_reverse.mp hc)),
    List.reverse_reverse, asString_data]

theorem isUserChar_not_space {c : Char} (h : isUserChar c = true) :
    goIsSpace c = false := by
  by_contra hs
  rw [Bool.not_eq_false] at hs
  simp only [isUserChar, goIsSpace, Bool.or_eq_true, Bool.and_eq_true,
    decide_eq_true_eq] at h hs
  omega

theorem isDigitChar_isUserChar {c : Char} (h : isDigitChar c = true) :
    isUserChar c = true := by
  simp only [isDigitChar, isUserChar, Bool.or_eq_true, Bool.and_eq_true,
    decide_eq_true_eq] at h ⊢
  omega

theorem goTrimSpace_eq_self_of_userChars {s : String}
    (h : s.data.all isUserChar = true) : goTrimSpace s = s :=
  goTrimSpace_eq_self fun c hc =>
    isUserChar_not_space (List.all_eq_true.mp h c hc)

theorem goFormatRFC3339_ne_empty (t : GoTime) : goFormatRFC3339 t ≠ "" := by
  unfold goFormatRFC3339
  intro h
  have h2 := congrArg String.data h
  rw [data_asString] at h2
  simp [List.append_eq_nil] at h2

theorem firstMatch_none {tp : TimeParse} {s : String} :
    ∀ {layouts : List Layout}, (∀ f ∈ layouts, tp f s = none) →
      firstMatch tp layouts s = none
  | [], _ => rfl
  | f :: rest, h => by
    have hf := h f (by simp)
    have hr : firstMatch tp rest s = none :=
      firstMatch_none (fun g hg => h g (by simp [hg]))
    simp [firstMatch, hf, hr]

theorem convertItem_snd_none (tp : TimeParse) (now : GoTime) (item : Item) :
    (convertItemToBookmark tp now item).2 = none := rfl

theorem convertRDFItem_snd_none (tp : TimeParse) (now : GoTime) (item : RDFItem) :
    (convertRDFItemToBookmark tp now item).2 = none := rfl

theorem extractBookmarkItems_cons (tp : TimeParse) (now : GoTime) (i : Item)
    (r : List Item) :
    extractBookmarkItems tp now (i :: r) =
      (convertItemToBookmark tp now i).1 :: extractBookmarkItems tp now r := rfl

theorem extractRDFBookmarkItems_cons (tp : TimeParse) (now : GoTime) (i : RDFItem)
    (r : List RDFItem) :
    extractRDFBookmarkItems tp now (i :: r) =
      (convertRDFItemToBookmark tp now i).1 :: extractRDFBookmarkItems tp now r := rfl

theorem daysInMonth_le_31 (y m : Nat) : daysInMonth y m ≤ 31 := by
  unfold daysInMonth
  split_ifs <;> omega

theorem isEmpty_false_of_ne_nil {l : List Char} (h : l ≠ []) : l.isEmpty = false := by
  cases l with
  | nil => exact absurd rfl h
  | cons a t => rfl

theorem ValidateDate_some_code {nowYear : Nat} {date : String} {e : MCPError}
    (h : ValidateDate nowYear date = some e) : e.Code = ErrorCode.validation := by
  simp only [ValidateDate] at h
  split_ifs at h <;>
    first
      | exact Option.noConfusion h
      | (injection h with h2; subst h2; rfl)

/-! ## Claim theorems -/

/-- C1: `GenerateCacheKey` is not injective over queries. Two fully
valid parameter sets that differ (tag `"x_date:20240101"` with no date
versus tag `"x"` with date `"20240101"`) produce the same key, and two
queries differing only in the page number (55296 vs 55297, both invalid
Unicode scalar values after the `string(rune(page))` coercion) also
collide on the replacement character. Both pairs evaluate the code at
the failing inputs of the claim. -/
theorem c1_cache_key_not_injective :
    GenerateCacheKey ⟨"user", "x_date:20240101", "", "", 0⟩ =
      GenerateCacheKey ⟨"user", "x", "20240101", "", 0⟩
    ∧ (⟨"user", "x_date:20240101", "", "", 0⟩ : GetHatenaBookmarksParams) ≠
      ⟨"user", "x", "20240101", "", 0⟩
    ∧ ValidateGetBookmarksParams (fun _ => none) 2025
        ⟨"user", "x_date:20240101", "", "", 0⟩ = none
    ∧ ValidateGetBookmarksParams (fun _ => none) 2025
        ⟨"user", "x", "20240101", "", 0⟩ = none
    ∧ GenerateCacheKey ⟨"u", "", "", "", 55296⟩ =
      GenerateCacheKey ⟨"u", "", "", "", 55297⟩ := by
  refine ⟨?_, ?_, ?_, ?_, ?_⟩ <;> decide

/-- C2: the RDF conversion checks the dc:subject for emptiness before
trimming, so a whitespace-only subject yields `[""]` — a tags list with
an empty entry — while the RSS 2.0 `extractTags` drops such a subject.
This evaluates both dialects' tag extraction at the failing input
`" "`. -/
theorem c2_rdf_whitespace_subject_tags :
    (convertRDFItemToBookmark (fun _ _ => none) t0
        ⟨"about", "title", "link", "", "creator", "", " ", 0, ""⟩).1.Tags = [""]
    ∧ "" ∈ (convertRDFItemToBookmark (fun _ _ => none) t0
        ⟨"about", "title", "link", "", "creator", "", " ", 0, ""⟩).1.Tags
    ∧ extractTags [" "] = [] := by
  refine ⟨?_, ?_, ?_⟩ <;> decide

/-- C6: `ParseRSSFeed` routes on the textual marker alone: any input
containing `"<rdf:RDF"` or `"xmlns:rdf"` goes to the RDF parser and any
input containing neither goes to the RSS 2.0 parser, whatever the
unmarshalling functions do. -/
theorem c6_format_detection_routing (tp : TimeParse) (now : GoTime)
    (uRSS : String → Option RSS) (uRDF : String → Option RDF) (content : String) :
    ((goContains content "<rdf:RDF" = true ∨ goContains content "xmlns:rdf" = true) →
      ParseRSSFeed tp now uRSS uRDF content = parseRDFFeed tp now uRDF content)
    ∧ ((goContains content "<rdf:RDF" = false ∧ goContains content "xmlns:rdf" = false) →
      ParseRSSFeed tp now uRSS uRDF content = parseRSS2Feed tp now uRSS content) := by
  unfold ParseRSSFeed isRDFFormat
  constructor
  · intro h
    rcases h with h | h <;> simp [h]
  · intro h
    simp [h.1, h.2]

/-- C6 witness: a document with the RDF markers is handed to the RDF
parser and a plain RSS 2.0 document to the syndication parser. -/
theorem c6_witness :
    ParseRSSFeed tpW t0 uRSSW uRDFW "<rdf:RDF xmlns:rdf=x>" =
      parseRDFFeed tpW t0 uRDFW "<rdf:RDF xmlns:rdf=x>"
    ∧ ParseRSSFeed tpW t0 uRSSW uRDFW "<rss version=2.0></rss>" =
      parseRSS2Feed tpW t0 uRSSW "<rss version=2.0></rss>" :=
  ⟨(c6_format_detection_routing tpW t0 uRSSW uRDFW _).1 (Or.inl (by decide)),
   (c6_format_detection_routing tpW t0 uRSSW uRDFW _).2 ⟨by decide, by decide⟩⟩

/-- C7: setting a key and immediately getting it returns the stored
value, and once strictly more than the TTL has elapsed since insertion
the lookup returns absent with no sweep involved (expiry is decided at
lookup time). -/
theorem c7_cache_set_get_ttl (c : Cache) (now : Nat) (k : String)
    (v : GetHatenaBookmarksResponse) :
    (c.set now k v).get now k = some v
    ∧ ∀ now2, now + c.ttl < now2 → (c.set now k v).get now2 k = none := by
  constructor
  · simp only [Cache.get, Cache.set, List.lookup, beq_self_eq_true]
    rw [if_neg (by omega)]
  · intro now2 h
    simp only [Cache.get, Cache.set, List.lookup, beq_self_eq_true]
    rw [if_pos h]

/-- C7 witness: with TTL 300, a value stored at time 0 is returned at
time 0 and absent at time 301. -/
theorem c7_witness :
    (Cache.set ⟨[], 300⟩ 0 "key" respW).get 0 "key" = some respW
    ∧ (Cache.set ⟨[], 300⟩ 0 "key" respW).get 301 "key" = none :=
  ⟨(c7_cache_set_get_ttl ⟨[], 300⟩ 0 "key" respW).1,
   (c7_cache_set_get_ttl ⟨[], 300⟩ 0 "key" respW).2 301 (by decide)⟩

/-- C5: an RSS item whose publication date matches none of the known
layouts is still converted without error: its `BookmarkedAt` is the
RFC3339 rendering of the current time — non-empty and different from
the raw unparsed string — and the extraction loop keeps every item, so
the item count is unchanged. The last hypothesis is the stdlib fact
that the RFC3339 rendering of the current time parses under the RFC3339
layout. -/
theorem c5_unparseable_date_fallback (tp : TimeParse) (now : GoTime) (item : Item)
    (hnone : ∀ f ∈ rssLayouts, tp f item.PubDate = none)
    (hrt : (tp rfc3339Layout (goFormatRFC3339 now)).isSome = true) :
    (convertItemToBookmark tp now item).2 = none
    ∧ (convertItemToBookmark tp now item).1.BookmarkedAt = goFormatRFC3339 now
    ∧ (convertItemToBookmark tp now item).1.BookmarkedAt ≠ ""
    ∧ (convertItemToBookmark tp now item).1.BookmarkedAt ≠ item.PubDate
    ∧ ∀ items : List Item, (extractBookmarkItems tp now items).length = items.length := by
  have hat : (convertItemToBookmark tp now item).1.BookmarkedAt = goFormatRFC3339 now := by
    by_cases hs : item.PubDate = ""
    · simp [convertItemToBookmark, parseDate, hs]
    · have hfm := firstMatch_none hnone
      simp [convertItemToBookmark, parseDate, hs, hfm]
  have hne : item.PubDate ≠ goFormatRFC3339 now := by
    intro heq
    have hmem : rfc3339Layout ∈ rssLayouts := by simp [rssLayouts]
    have h1 := hnone rfc3339Layout hmem
    rw [heq] at h1
    rw [h1] at hrt
    simp at hrt
  refine ⟨rfl, hat, ?_, ?_, ?_⟩
  · rw [hat]; exact goFormatRFC3339_ne_empty now
  · rw [hat]; exact fun h => hne h.symm
  · intro items
    induction items with
    | nil => rfl
    | cons i r ih => rw [extractBookmarkItems_cons]; simp [ih]

/-- C5 witness: at a concrete parser, time and item with publication
date `"garbage"`, the conversion reports no error and the timestamp is
the rendered current time, distinct from `"garbage"` and from `""`. -/
theorem c5_witness :
    (convertItemToBookmark tpW t0 itemW).2 = none
    ∧ (convertItemToBookmark tpW t0 itemW).1.BookmarkedAt = goFormatRFC3339 t0
    ∧ (convertItemToBookmark tpW t0 itemW).1.BookmarkedAt ≠ ""
    ∧ (convertItemToBookmark tpW t0 itemW).1.BookmarkedAt ≠ "garbage" :=
  have h := c5_unparseable_date_fallback tpW t0 itemW (by decide) (by decide)
  ⟨h.1, h.2.1, h.2.2.1, h.2.2.2.1⟩

/-- C8 counterexample: a 126-character description (all characters
4 UTF-8 bytes wide) strips and trims to itself, has at most 500
characters, yet extraction returns the empty comment — the length
threshold is 500 bytes, not 500 characters as claimed. -/
theorem c8_counterexample :
    extractComment wideString = ""
    ∧ wideString ≠ ""
    ∧ wideString.data.length ≤ 500
    ∧ goTrimSpace (stripHTMLTags wideString) = wideString := by
  refine ⟨?_, ?_, ?_, ?_⟩ <;> decide

/-- C8 (amended): comment extraction strips every `<[^>]*>` run, trims
surrounding whitespace, and returns the result unless it exceeds 500
UTF-8 bytes, in which case the comment is empty; in particular
`"<b>hello</b> world"` normalizes to `"hello world"` and a 501-byte
stripped text yields the empty comment. -/
theorem c8_comment_extraction :
    (∀ d : String, extractComment d =
      (if 500 < goLen (goTrimSpace (stripHTMLTags d)) then ""
       else goTrimSpace (stripHTMLTags d)))
    ∧ extractComment "<b>hello</b> world" = "hello world"
    ∧ extractComment longAscii = "" := by
  refine ⟨fun d => rfl, by decide, by decide⟩

/-- C9: an empty date string is treated as success in both dialects:
`parseDate` and `parseRDFDate` return the rendered current time with no
error, and an item with an empty date converts with no error and that
timestamp. -/
theorem c9_empty_date_success (tp : TimeParse) (now : GoTime) :
    parseDate tp now "" = (goFormatRFC3339 now, none)
    ∧ parseRDFDate tp now "" = (goFormatRFC3339 now, none)
    ∧ (∀ (title link desc : String) (subs : List String),
        (convertItemToBookmark tp now ⟨title, link, desc, "", subs⟩).2 = none
        ∧ (convertItemToBookmark tp now ⟨title, link, desc, "", subs⟩).1.BookmarkedAt =
            goFormatRFC3339 now)
    ∧ (∀ (about title link desc creator subject : String) (bc : Int) (enc : String),
        (convertRDFItemToBookmark tp now
            ⟨about, title, link, desc, creator, "", subject, bc, enc⟩).2 = none
        ∧ (convertRDFItemToBookmark tp now
            ⟨about, title, link, desc, creator, "", subject, bc, enc⟩).1.BookmarkedAt =
            goFormatRFC3339 now) :=
  ⟨rfl, rfl, fun _ _ _ _ => ⟨rfl, rfl⟩, fun _ _ _ _ _ _ _ _ => ⟨rfl, rfl⟩⟩

/-- C10: each dialect's extraction loop returns exactly the in-order
subsequence of items whose conversion succeeds (filter) mapped to their
converted records, and each dialect's feed parser reports an item count
equal to the length of that output sequence. -/
theorem c10_order_preserving_extraction (tp : TimeParse) (now : GoTime) :
    (∀ items : List Item,
      extractBookmarkItems tp now items =
        (items.filter fun it => ((convertItemToBookmark tp now it).2).isNone).map
          fun it => (convertItemToBookmark tp now it).1)
    ∧ (∀ items : List RDFItem,
      extractRDFBookmarkItems tp now items =
        (items.filter fun it => ((convertRDFItemToBookmark tp now it).2).isNone).map
          fun it => (convertRDFItemToBookmark tp now it).1)
    ∧ (∀ (rssv : RSS) (content : String),
      parseRSS2Feed tp now (fun _ => some rssv) content =
        .ok ⟨rssv.channel.Title, extractBookmarkItems tp now rssv.channel.Items,
          (extractBookmarkItems tp now rssv.channel.Items).length⟩)
    ∧ (∀ (rdfv : RDF) (content : String),
      parseRDFFeed tp now (fun _ => some rdfv) content =
        .ok ⟨rdfv.channel.Title, extractRDFBookmarkItems tp now rdfv.Items,
          (extractRDFBookmarkItems tp now rdfv.Items).length⟩) := by
  refine ⟨?_, ?_, fun _ _ => rfl, fun _ _ => rfl⟩
  · intro items
    induction items with
    | nil => rfl
    | cons i r ih =>
      rw [extractBookmarkItems_cons, List.filter_cons,
        if_pos (by rw [convertItem_snd_none]; rfl), List.map_cons, ih]
  · intro items
    induction items with
    | nil => rfl
    | cons i r ih =>
      rw [extractRDFBookmarkItems_cons, List.filter_cons,
        if_pos (by rw [convertRDFItem_snd_none]; rfl), List.map_cons, ih]

/-- C3 counterexample: the validation actually performed on a
`GetBookmarks` request (`validateParams`, which uses
`isValidDateFormat`) accepts the calendar-invalid date `"20240230"`
instead of rejecting it with a ValidationError. -/
theorem c3_counterexample :
    validateParams (fun _ => true) ⟨"alice", "", "20240230", "", 1⟩ = none
    ∧ goDateValid 2024 2 30 = false := by
  constructor <;> decide

/-- C3 (amended): the request-path validation accepts every 8-digit
date string regardless of calendar validity, while the utils
`Validator.ValidateDate` — not invoked on the request path — implements
the full rule: an 8-digit string passes iff its year lies in
`[1900, nowYear + 1]` and the digits form a calendar-valid date, every
rejection being a ValidationError. -/
theorem c3_date_validation (nowYear : Nat) (date : String)
    (h8 : goLen date = 8) (hd : date.data.all isDigitChar = true) :
    (ValidateDate nowYear date = none ↔
      (1900 ≤ digitsToNat (date.data.take 4)
        ∧ digitsToNat (date.data.take 4) ≤ nowYear + 1
        ∧ goDateValid (digitsToNat (date.data.take 4))
            (digitsToNat ((date.data.drop 4).take 2))
            (digitsToNat (date.data.drop 6)) = true))
    ∧ (∀ e, ValidateDate nowYear date = some e → e.Code = ErrorCode.validation)
    ∧ isValidDateFormat date = true
    ∧ (∀ (isURL : String → Bool) (u : String),
        u.data.all isUserChar = true → u ≠ "" →
        validateParams isURL ⟨u, "", date, "", 0⟩ = none) := by
  have htrim : goTrimSpace date = date :=
    goTrimSpace_eq_self fun c hc =>
      isUserChar_not_space (isDigitChar_isUserChar (List.all_eq_true.mp hd c hc))
  have hfmt : isValidDateFormat date = true := by
    simp [isValidDateFormat, h8, hd]
  refine ⟨?_, fun e h => ValidateDate_some_code h, hfmt, ?_⟩
  · unfold ValidateDate
    rw [htrim, if_neg (by simp [h8]), if_neg (by simp [hd])]
    dsimp only
    have hdm := daysInMonth_le_31 (digitsToNat (date.data.take 4))
      (digitsToNat ((date.data.drop 4).take 2))
    split_ifs with h1 h2 h3 h4
    · simp only [Bool.or_eq_true, decide_eq_true_eq] at h1
      constructor
      · intro hx
        exact hx.elim
      · rintro ⟨hy1, hy2, -⟩
        omega
    · simp only [Bool.or_eq_true, decide_eq_true_eq] at h2
      constructor
      · intro hx
        exact hx.elim
      · rintro ⟨-, -, hg⟩
        simp only [goDateValid, Bool.and_eq_true, decide_eq_true_eq] at hg
        omega
    · simp only [Bool.or_eq_true, decide_eq_true_eq] at h3
      constructor
      · intro hx
        exact hx.elim
      · rintro ⟨-, -, hg⟩
        simp only [goDateValid, Bool.and_eq_true, decide_eq_true_eq] at hg
        omega
    · simp only [Bool.not_eq_true'] at h4
      constructor
      · intro hx
        exact hx.elim
      · rintro ⟨-, -, hg⟩
        rw [hg] at h4
        exact Bool.noConfusion h4
    · simp only [Bool.or_eq_true, decide_eq_true_eq, not_or, not_lt] at h1
      simp only [Bool.not_eq_true', Bool.not_eq_false] at h4
      constructor
      · intro _
        exact ⟨h1.1, h1.2, h4⟩
      · intro _
        rfl
  · intro isURL u hu hne
    have htrimu : goTrimSpace u = u := goTrimSpace_eq_self_of_userChars hu
    have hval : isValidUsername u = true := by
      simp [isValidUsername, hu, isEmpty_false_of_ne_nil (data_ne_nil hne)]
    simp [validateParams, htrimu, hne, hval, hfmt]

/-- C3 witness: `Validator.ValidateDate` accepts `"20240229"` (2024 is
a leap year), rejects `"20240230"` and `"20230229"` (2023 is not a
leap year), while the request path accepts `"20240229"` too. -/
theorem c3_witness :
    ValidateDate 2024 "20240229" = none
    ∧ ValidateDate 2024 "20240230" ≠ none
    ∧ ValidateDate 2023 "20230229" ≠ none
    ∧ validateParams (fun _ => true) ⟨"alice", "", "20240229", "", 0⟩ = none := by
  have h1 := c3_date_validation 2024 "20240229" (by decide) (by decide)
  have h2 := c3_date_validation 2024 "20240230" (by decide) (by decide)
  have h3 := c3_date_validation 2023 "20230229" (by decide) (by decide)
  refine ⟨h1.1.mpr (by decide), ?_, ?_,
    h1.2.2.2 (fun _ => true) "alice" (by decide) (by decide)⟩
  · intro hn
    have hx := h2.1.mp hn
    revert hx
    decide
  · intro hn
    have hx := h3.1.mp hn
    revert hx
    decide

/-- C4 counterexample: the validation actually performed on a
`GetBookmarks` request (`validateParams`, which uses `isValidUsername`)
accepts a 51-character username instead of rejecting it. -/
theorem c4_counterexample :
    validateParams (fun _ => true) ⟨longUser, "", "", "", 1⟩ = none
    ∧ goLen longUser = 51 := by
  constructor <;> decide

/-- C4 (amended): the request-path validation accepts every non-empty
username over `[A-Za-z0-9-]` regardless of length (no 50-character cap
on the request path), and rejects any username containing a character
outside that set with a ValidationError whose details identify the
username field; the 50-character cap exists only in the utils
`Validator.ValidateUsername` — not invoked on the request path — which
accepts 1-50 character valid usernames and rejects longer ones. -/
theorem c4_username_validation (isURL : String → Bool) (u : String) :
    (u.data.all isUserChar = true → u ≠ "" →
      validateParams isURL ⟨u, "", "", "", 0⟩ = none)
    ∧ ((∃ c ∈ u.data, isUserChar c = false) →
      ∃ e, validateParams isURL ⟨u, "", "", "", 0⟩ = some e
        ∧ e.Code = ErrorCode.validation
        ∧ (("field", "username") ∈ e.Details ∨ ("username", u) ∈ e.Details))
    ∧ (u.data.all isUserChar = true → u ≠ "" → goLen u ≤ 50 →
      ValidateUsername u = none)
    ∧ (u.data.all isUserChar = true → 50 < goLen u →
      ∃ e, ValidateUsername u = some e ∧ e.Code = ErrorCode.validation
        ∧ ("username", u) ∈ e.Details) := by
  refine ⟨?_, ?_, ?_, ?_⟩
  · intro hu hne
    have htrimu : goTrimSpace u = u := goTrimSpace_eq_self_of_userChars hu
    have hval : isValidUsername u = true := by
      simp [isValidUsername, hu, isEmpty_false_of_ne_nil (data_ne_nil hne)]
    simp [validateParams, htrimu, hne, hval]
  · rintro ⟨c, hc, hbad⟩
    have hall : u.data.all isUserChar = false := by
      cases hb : u.data.all isUserChar
      · rfl
      · exact absurd (List.all_eq_true.mp hb c hc) (by simp [hbad])
    have hvalf : isValidUsername u = false := by
      simp [isValidUsername, hall]
    by_cases htrim0 : goTrimSpace u = ""
    · exact ⟨⟨.validation, "Username is required", [("field", "username")]⟩,
        by simp [validateParams, htrim0], rfl, Or.inl (by simp)⟩
    · exact ⟨⟨.validation,
        "Username must contain only alphanumeric characters and hyphens",
        [("username", u)]⟩,
        by simp [validateParams, htrim0, hvalf], rfl, Or.inr (by simp)⟩
  · intro hu hne hle
    have htrimu : goTrimSpace u = u := goTrimSpace_eq_self_of_userChars hu
    simp [ValidateUsername, htrimu, hne, hu, Nat.not_lt.mpr hle]
  · intro hu h50
    have hne : u ≠ "" := by
      intro h
      subst h
      exact absurd h50 (by decide)
    have htrimu : goTrimSpace u = u := goTrimSpace_eq_self_of_userChars hu
    exact ⟨⟨.validation, "Username must be 50 characters or less",
      [("username", u), ("length", toString (goLen u))]⟩,
      by simp [ValidateUsername, htrimu, hne, h50], rfl, by simp⟩

/-- C4 witness: `"alice"` is accepted on the request path and by the
utils validator; `"al ice"` is rejected with a username-identifying
ValidationError; the 51-character username is rejected by the utils
validator (and only there). -/
theorem c4_witness :
    validateParams (fun _ => true) ⟨"alice", "", "", "", 0⟩ = none
    ∧ (∃ e, validateParams (fun _ => true) ⟨"al ice", "", "", "", 0⟩ = some e
        ∧ e.Code = ErrorCode.validation
        ∧ (("field", "username") ∈ e.Details ∨ ("username", "al ice") ∈ e.Details))
    ∧ ValidateUsername "alice" = none
    ∧ (∃ e, ValidateUsername longUser = some e ∧ e.Code = ErrorCode.validation
        ∧ ("username", longUser) ∈ e.Details) :=
  ⟨(c4_username_validation (fun _ => true) "alice").1 (by decide) (by decide),
   (c4_username_validation (fun _ => true) "al ice").2.1 ⟨' ', by decide, by decide⟩,
   (c4_username_validation (fun _ => true) "alice").2.2.1 (by decide) (by decide) (by decide),
   (c4_username_validation (fun _ => true) longUser).2.2.2 (by decide) (by decide)⟩

end HatenaBookmark
